import Mathlib

set_option maxRecDepth 2000

/-!
Verification of the partition-specification parser and size resolver of
`diskimgcreator.py` (repository Ciantic/diskimgcreator).

The Python core is regex-driven.  We embed it shallowly: strings are
`List Char`, and the handful of regular expressions appearing in the source
are transliterated into a tiny regex abstract syntax `RE` together with a
backtracking matcher `matchRe` that reproduces the semantics of Python's
`re.match` for the constructs those patterns use:

  * `re.match` anchors at the start of the string only; the match need not
    reach the end unless the pattern ends in `$`;
  * `$` (no MULTILINE flag) succeeds at the end of the string or just
    before a single trailing newline;
  * `.` matches any character except a newline;
  * greedy quantifiers (`*`, `+`, `?`) prefer the longest alternative,
    alternation prefers its left branch, and captures are taken from the
    first overall match found in that backtracking order;
  * a group that did not participate in the match yields `None`
    (here: a missing entry in the capture list).

Every quantifier in the source's patterns is applied to a single-character
item (a character class or `.`), so the syntax only needs a star over
character predicates; this keeps the matcher structurally recursive.

Python's `\d` is modelled as an ASCII digit and `str.lower` as ASCII
lowercasing (`Char.toLower`); all filenames and tokens in the grammar this
program accepts are ASCII, where the two coincide with Python's Unicode
behaviour.
-/

/-- Capture list of a regex match: pairs of group number and captured
substring, most recently closed group first. -/
abbrev Caps := List (Nat × List Char)

/-- Regex abstract syntax, covering exactly the constructs used by the
patterns in `diskimgcreator.py`. -/
inductive RE where
  /-- empty pattern, matches the empty string -/
  | emp : RE
  /-- single character satisfying a predicate (a character class, a literal
  character, or `.`) -/
  | ch (p : Char → Bool) : RE
  /-- greedy star over a single-character class (`[...]*`, `.*`) -/
  | starCh (p : Char → Bool) : RE
  /-- concatenation -/
  | seq (a b : RE) : RE
  /-- alternation, left branch preferred -/
  | alt (a b : RE) : RE
  /-- numbered capturing group -/
  | group (n : Nat) (r : RE) : RE
  /-- the `$` anchor -/
  | endA : RE

/-- Greedy matching of `p*`: consume as many `p`-characters as possible,
then on failure of the continuation `k` backtrack one character at a time.
The first alternative tried is maximal consumption, exactly as a
backtracking regex engine treats a greedy star. -/
def tryStar (p : Char → Bool) (k : List Char → Option Caps) : List Char → Option Caps
  | [] => k []
  | c :: rest =>
    if p c then (tryStar p k rest) <|> k (c :: rest) else k (c :: rest)

/-- Backtracking matcher in continuation-passing style.  `matchRe r s caps k`
tries to match `r` against a prefix of `s`, extending the capture list
`caps`, and calls `k` with the remaining suffix and the captures on each
candidate; the first success (in Python's backtracking order) wins. -/
def matchRe : RE → List Char → Caps → (List Char → Caps → Option Caps) → Option Caps
  | .emp, s, caps, k => k s caps
  | .ch p, s, caps, k =>
    match s with
    | [] => none
    | c :: rest => if p c then k rest caps else none
  | .starCh p, s, caps, k => tryStar p (fun s' => k s' caps) s
  | .seq a b, s, caps, k => matchRe a s caps (fun s' caps' => matchRe b s' caps' k)
  | .alt a b, s, caps, k => (matchRe a s caps k) <|> (matchRe b s caps k)
  | .group n r, s, caps, k =>
    matchRe r s caps (fun s' caps' => k s' ((n, s.take (s.length - s'.length)) :: caps'))
  | .endA, s, caps, k => if s = [] ∨ s = ['\n'] then k s caps else none

/-- Model of Python's `re.match(pattern, s)`: anchored at the start, free at
the end; returns the captures of the first match found, or `none`. -/
def pyMatch (r : RE) (s : List Char) : Option Caps :=
  matchRe r s [] (fun _ caps => some caps)

/-- Literal string pattern. -/
def litRE (s : List Char) : RE :=
  s.foldr (fun c r => RE.seq (RE.ch (fun d => d == c)) r) RE.emp

/-- Concatenation of a pattern list. -/
def seqs (rs : List RE) : RE := rs.foldr RE.seq RE.emp

/-- Greedy `p+` = one `p`-character followed by greedy `p*`. -/
def plusCh (p : Char → Bool) : RE := RE.seq (RE.ch p) (RE.starCh p)

/-- Greedy optional pattern `r?`. -/
def optRE (r : RE) : RE := RE.alt r RE.emp

/-- Character class `.` of Python without DOTALL: any character but `\n`. -/
def dotC (c : Char) : Bool := c != '\n'

/-- Character class `\d` (ASCII digit). -/
def digitC (c : Char) : Bool := c.isDigit

/-- Character class `[\d\.]`. -/
def digitDotC (c : Char) : Bool := c.isDigit || c == '.'

/-- Character class `[^_ ]`. -/
def notUndSpC (c : Char) : Bool := c != '_' && c != ' '

/-- Character class `[^_\. ]`. -/
def notUndDotSpC (c : Char) : Bool := c != '_' && c != '.' && c != ' '

/-- Character class `[^ $]`. -/
def notSpDollarC (c : Char) : Bool := c != ' ' && c != '$'

/-- Character class `[^ ]`. -/
def notSpC (c : Char) : Bool := c != ' '

/-- Character class `[_ ]` (the short format's token separator). -/
def sepC (c : Char) : Bool := c == '_' || c == ' '

/-- Pattern `\d\d?`. -/
def digits12 : RE := RE.seq (RE.ch digitC) (optRE (RE.ch digitC))

/-- Pattern `(\.tar|\.tar\.gz)` from the source (alternation order kept). -/
def tarSuffixRE : RE := RE.alt (litRE ".tar".data) (litRE ".tar.gz".data)

/-- Source `_try_get_partitions_short_format`, pattern

`.*partition(\d\d?)[_ ](?P<msdos>msdos[_ ])?(?P<partition_end>[^_ ]+)[_ ](?P<fstype>[^_\. ]+)(\.tar|\.tar\.gz)?$`

with groups numbered 1 = index digits, 2 = `msdos`, 3 = `partition_end`,
4 = `fstype`, 5 = the suffix. -/
def short_format : RE :=
  seqs [RE.starCh dotC, litRE "partition".data, RE.group 1 digits12, RE.ch sepC,
        optRE (RE.group 2 (RE.seq (litRE "msdos".data) (RE.ch sepC))),
        RE.group 3 (plusCh notUndSpC), RE.ch sepC,
        RE.group 4 (plusCh notUndDotSpC), optRE (RE.group 5 tarSuffixRE), RE.endA]

/-- Source `_try_get_partitions_long_format`, pattern

`.*partition(\d\d?).*-- parted (?P<parted>.*)(\.tar|\.tar\.gz)?$`

with groups 1 = index digits, 2 = `parted`, 3 = the suffix. -/
def long_format : RE :=
  seqs [RE.starCh dotC, litRE "partition".data, RE.group 1 digits12,
        RE.starCh dotC, litRE "-- parted ".data, RE.group 2 (RE.starCh dotC),
        optRE (RE.group 3 tarSuffixRE), RE.endA]

/-- Source `_try_get_partitions_long_format`, pattern

`.* (?P<fstype>[^ ]+) (?P<partition_start>[^ ]+) (?P<partition_end>[^ ]+)$`

with groups 1 = `fstype`, 2 = `partition_start`, 3 = `partition_end`. -/
def long_format_fstype : RE :=
  seqs [RE.starCh dotC, litRE " ".data, RE.group 1 (plusCh notSpC),
        litRE " ".data, RE.group 2 (plusCh notSpC),
        litRE " ".data, RE.group 3 (plusCh notSpC), RE.endA]

/-- Source `PartitionCollection.get_total_size`, pattern

`.* -- dd (?P<size_all>[^ $]+)` with group 1 = `size_all` (no end anchor). -/
def total_size_long : RE :=
  seqs [RE.starCh dotC, litRE " -- dd ".data, RE.group 1 (plusCh notSpDollarC)]

/-- Source `PartitionCollection.get_total_size`, pattern

`.*partition(\d\d?)[_ ](?P<partition_end>[^_ ]+)` with groups
1 = index digits, 2 = `partition_end` (no end anchor). -/
def total_size_short : RE :=
  seqs [RE.starCh dotC, litRE "partition".data, RE.group 1 digits12,
        RE.ch sepC, RE.group 2 (plusCh notUndSpC)]

/-- Source `_parse_size`, pattern `^([\d\.]+)(.*)$` with groups
1 = the numeric part, 2 = the unit. -/
def parse_size_format : RE :=
  seqs [RE.group 1 (plusCh digitDotC), RE.group 2 (RE.starCh dotC), RE.endA]

/-!  The exceptions the modelled code can raise.  `valueError` stands for
Python's built-in `ValueError` (raised by `float()` on a malformed numeral)
and `indexError` for `IndexError` (raised by subscripting an empty list);
neither is one of the script's own exception classes. -/

/-- Exceptions raised by the modelled fragment of `diskimgcreator.py`. -/
inductive PyErr where
  /-- `PartitionSizeParseException` -/
  | sizeParse : PyErr
  /-- `PartitionParseException(filename)` -/
  | partitionParse (filename : List Char) : PyErr
  /-- `PartitionsNotFoundException` -/
  | partitionsNotFound : PyErr
  /-- Python `ValueError` (e.g. from `float()` on a malformed numeral) -/
  | valueError : PyErr
  /-- Python `IndexError` (e.g. `files[0]` on an empty list) -/
  | indexError : PyErr
deriving DecidableEq, Repr

/-- Value of a digit character. -/
def digitVal (c : Char) : Nat := c.toNat - 48

/-- Natural number denoted by a digit string (0 for the empty string). -/
def natDigits (s : List Char) : Nat := s.foldl (fun n c => 10 * n + digitVal c) 0

/-- Round-to-nearest with ties to even on the grid of integer multiples of
`ulp`: the rounding step IEEE 754 performs once the scale of the result is
fixed.  The fractional part of `q / ulp` decides: below one half round
down, above one half round up, exactly one half round to the even
multiple. -/
def roundGrid (ulp q : ℚ) : ℚ :=
  if q / ulp - ⌊q / ulp⌋ < 1 / 2 then ⌊q / ulp⌋ * ulp
  else if 1 / 2 < q / ulp - ⌊q / ulp⌋ then (⌊q / ulp⌋ + 1) * ulp
  else if ⌊q / ulp⌋ % 2 = 0 then ⌊q / ulp⌋ * ulp else (⌊q / ulp⌋ + 1) * ulp

/-- Exact value of the IEEE 754 binary64 double nearest to `q` (round to
nearest, ties to even), for `q` in the double's normal range: with
`L = ⌊log₂ |q|⌋` the representable neighbours of `q` are the multiples of
`2 ^ (L - 52)`, and `roundGrid` picks the nearest (even on ties; a
round-up to `2 ^ (L + 1)` lands on the next binade's smallest value,
which is representable).  Every finite double is an exact rational, so
CPython's float arithmetic on the tokens this program handles is modelled
exactly; subnormal and overflowing magnitudes (below 2⁻¹⁰²² or at 2¹⁰²⁴
and beyond) are outside the scope of this modelling. -/
def roundB64 (q : ℚ) : ℚ :=
  if q = 0 then 0
  else if 0 < q then roundGrid ((2 : ℚ) ^ (Int.log 2 q - 52)) q
  else - roundGrid ((2 : ℚ) ^ (Int.log 2 (-q) - 52)) (-q)

/-- Model of Python's `float()` applied to a string drawn from the character
class `[\d\.]+` (the only strings the source feeds it): a valid numeral has
at most one dot and at least one digit; its value is the binary64 double
nearest to the exact decimal value (CPython converts with correct
rounding), represented as an exact rational via `roundB64`.  An invalid
numeral - several dots, or a lone dot - makes `float()` raise
`ValueError`, modelled as `none`. -/
def pyFloat (s : List Char) : Option ℚ :=
  if s.count '.' = 0 then
    if s = [] then none else some (roundB64 (natDigits s))
  else if s.count '.' = 1 then
    if s.takeWhile (fun c => c != '.') = [] ∧ (s.dropWhile (fun c => c != '.')).tail = [] then
      none
    else
      some (roundB64 ((natDigits (s.takeWhile (fun c => c != '.')) : ℚ)
        + (natDigits ((s.dropWhile (fun c => c != '.')).tail) : ℚ)
          / (10 : ℚ) ^ ((s.dropWhile (fun c => c != '.')).tail).length))
  else none

/-- Python's `int()` on a rational: truncation toward zero. -/
def pyInt (q : ℚ) : ℤ := if 0 ≤ q then ⌊q⌋ else -⌊-q⌋

/-- The `units` dictionary of `_parse_size`, keyed by the lowercased unit
string: empty unit means MB, `s` is a 512-byte sector, `b` a byte, and the
decimal / binary multiples follow. -/
def unitMult (l : List Char) : Option Nat :=
  if l = [] then some (1000 * 1000)
  else if l = "s".data then some 512
  else if l = "b".data then some 1
  else if l = "kb".data then some 1000
  else if l = "mb".data then some (1000 * 1000)
  else if l = "gb".data then some (1000 * 1000 * 1000)
  else if l = "tb".data then some (1000 * 1000 * 1000 * 1000)
  else if l = "kib".data then some 1024
  else if l = "mib".data then some (1024 * 1024)
  else if l = "gib".data then some (1024 * 1024 * 1024)
  else if l = "tib".data then some (1024 * 1024 * 1024 * 1024)
  else none

/-- Source `_parse_size(size)`: match `^([\d\.]+)(.*)$`, convert the first
group with `float()`, lowercase the second group and look it up in the unit
dictionary, and return `int(num * units[unit])`; raise
`PartitionSizeParseException` when the pattern or the unit lookup fails.
(The `float()` call happens before the unit lookup; a malformed numeral
therefore escapes as an uncaught `ValueError`.  The product
`num * units[unit]` is a float-by-int multiplication: the int becomes a
double - exactly, every multiplier being at most 1024⁴ < 2⁵³ - and the
IEEE multiply rounds the product, modelled by the outer `roundB64`;
`int()` then truncates toward zero.) -/
def _parse_size (size : List Char) : Except PyErr ℤ :=
  match pyMatch parse_size_format size with
  | some m =>
    match pyFloat ((m.lookup 1).getD []) with
    | none => .error .valueError
    | some num =>
      match unitMult (((m.lookup 2).getD []).map Char.toLower) with
      | some u => .ok (pyInt (roundB64 (num * (u : ℚ))))
      | none => .error .sizeParse
  | none => .error .sizeParse

/-- Source class `Partition`: filename, parted script fragment, fstype. -/
structure Partition where
  filename : List Char
  parted : List Char
  fstype : List Char
deriving DecidableEq, Repr

/-- Default beginning of the first partition (`first_partition_start`). -/
def oneMiB : List Char := "1MiB".data

/-- The literal `100%` used to extend the last partition. -/
def pct100 : List Char := "100%".data

/-- Parted fragment of the first short-format partition:
`unit s mklabel {table_type} mkpart primary {fstype} {start} {end} set 1 boot on`. -/
def firstFrag (tableType fstype pstart pend : List Char) : List Char :=
  "unit s mklabel ".data ++ tableType ++ " mkpart primary ".data ++ fstype
    ++ " ".data ++ pstart ++ " ".data ++ pend ++ " set 1 boot on".data

/-- Parted fragment of a subsequent short-format partition:
`mkpart primary {fstype} {start} {end}`. -/
def restFrag (fstype pstart pend : List Char) : List Char :=
  "mkpart primary ".data ++ fstype ++ " ".data ++ pstart ++ " ".data ++ pend

/-- The `for i, fname in enumerate(files)` loop body of
`_try_get_partitions_short_format`: re-match each filename, thread the
running `partition_end` (which becomes the next file's start), override the
end with `100%` on the last index, and emit the first-partition fragment
(table type from the `msdos` group, boot flag) at index 0. -/
def _try_get_partitions_short_format_loop
    (lastIdx : Nat) : Nat → List Char → List (List Char) → Except PyErr (List Partition)
  | _, _, [] => .ok []
  | i, prevEnd, fname :: rest =>
    match pyMatch short_format fname with
    | none => .error (.partitionParse fname)
    | some m =>
      let fstype := (m.lookup 4).getD []
      let partitionStart := prevEnd
      let declaredEnd := (m.lookup 3).getD []
      let partitionEnd := if lastIdx = i then pct100 else declaredEnd
      let parted :=
        if i = 0 then
          firstFrag (if (m.lookup 2).isSome then "msdos".data else "gpt".data)
            fstype partitionStart partitionEnd
        else restFrag fstype partitionStart partitionEnd
      (_try_get_partitions_short_format_loop lastIdx (i + 1) partitionEnd rest).map
        (Partition.mk fname parted fstype :: ·)

/-- Source `_try_get_partitions_short_format(files)`: `files[0]` (raising
`IndexError` on an empty list, as in Python), then either the synthesis
loop when the first file matches the short pattern, or the empty list. -/
def _try_get_partitions_short_format (files : List (List Char)) : Except PyErr (List Partition) :=
  match files with
  | [] => .error .indexError
  | f0 :: _ =>
    if (pyMatch short_format f0).isSome then
      _try_get_partitions_short_format_loop (files.length - 1) 0 oneMiB files
    else .ok []

/-- The `for fname in files` loop body of `_try_get_partitions_long_format`:
match each filename against the long pattern, capture the parted script,
then extract the fstype from the parted script; a failure of either match
raises `PartitionParseException(fname)`. -/
def _try_get_partitions_long_format_loop : List (List Char) → Except PyErr (List Partition)
  | [] => .ok []
  | fname :: rest =>
    match pyMatch long_format fname with
    | none => .error (.partitionParse fname)
    | some m =>
      let parted := (m.lookup 2).getD []
      match pyMatch long_format_fstype parted with
      | none => .error (.partitionParse fname)
      | some m2 =>
        (_try_get_partitions_long_format_loop rest).map
          (Partition.mk fname parted ((m2.lookup 1).getD []) :: ·)

/-- Source `_try_get_partitions_long_format(files)`: `files[0]` (raising
`IndexError` on an empty list, as in Python), then either the loop when the
first file matches the long pattern, or the empty list. -/
def _try_get_partitions_long_format (files : List (List Char)) : Except PyErr (List Partition) :=
  match files with
  | [] => .error .indexError
  | f0 :: _ =>
    if (pyMatch long_format f0).isSome then
      _try_get_partitions_long_format_loop files
    else .ok []

/-- Source `PartitionCollection.from_directory`: the sorted glob result is
taken here as the input list; `partitions = _try_long(files) or
_try_short(files)` (Python `or`: the short parser runs only when the long
parser returned an empty - falsy - list), then an empty result raises
`PartitionsNotFoundException`. -/
def from_directory (files : List (List Char)) : Except PyErr (List Partition) := do
  let lp ← _try_get_partitions_long_format files
  let ps ← if lp.isEmpty then _try_get_partitions_short_format files else pure lp
  if ps.isEmpty then Except.error .partitionsNotFound else pure ps

/-- Source `PartitionCollection.get_total_size`: try the long-format `-- dd`
pattern on the first partition's filename, else the loose short-format
pattern on the last partition's filename, else raise
`PartitionSizeParseException`.  (On an empty collection Python's
`self._partitions[0]` would raise `IndexError`.) -/
def get_total_size (ps : List Partition) : Except PyErr ℤ :=
  match ps with
  | [] => .error .indexError
  | p0 :: rest =>
    match pyMatch total_size_long p0.filename with
    | some m => _parse_size ((m.lookup 1).getD [])
    | none =>
      match pyMatch total_size_short (rest.getLastD p0).filename with
      | some m => _parse_size ((m.lookup 2).getD [])
      | none => .error .sizeParse

/-! ### Claim-side helper definitions -/

/-- Capture list of a filename's short-format match (empty when no match). -/
def shortCapsOf (f : List Char) : Caps := (pyMatch short_format f).getD []

/-- Declared end-offset token of a short-format filename: group
`partition_end` (3) of its short-format match. -/
def shortEndTok (f : List Char) : List Char := ((shortCapsOf f).lookup 3).getD []

/-- Filesystem-type token of a short-format filename: group `fstype` (4). -/
def shortFsTok (f : List Char) : List Char := ((shortCapsOf f).lookup 4).getD []

/-- Whether a short-format filename carries the `msdos` marker: group 2
participated in the match. -/
def shortHasMsdos (f : List Char) : Bool := ((shortCapsOf f).lookup 2).isSome

/-- Placeholder partition used as the default of `List.getD`. -/
def pdflt : Partition := ⟨[], [], []⟩

/-- Expected short-format synthesis, written from the claim's description:
start = running previous end (initially the caller's `prevEnd`), end =
declared end-offset except `100%` at the last index, first index carries
the table type and boot flag.  Compared against the source loop below. -/
def shortSpecSynthesis (lastIdx : Nat) : Nat → List Char → List (List Char) → List Partition
  | _, _, [] => []
  | i, prevEnd, f :: rest =>
    let pend := if lastIdx = i then pct100 else shortEndTok f
    let parted :=
      if i = 0 then
        firstFrag (if shortHasMsdos f then "msdos".data else "gpt".data)
          (shortFsTok f) prevEnd pend
      else restFrag (shortFsTok f) prevEnd pend
    Partition.mk f parted (shortFsTok f) :: shortSpecSynthesis lastIdx (i + 1) pend rest

/-- Decidable equality of results (the kernel's derived instances cover the
payload types; `Except` itself has none in the library). -/
instance exceptDecEq {ε α : Type} [DecidableEq ε] [DecidableEq α] :
    DecidableEq (Except ε α) := fun x y =>
  match x, y with
  | .ok a, .ok b =>
    if h : a = b then .isTrue (by rw [h])
    else .isFalse (fun hh => h (by cases hh; rfl))
  | .error e, .error e' =>
    if h : e = e' then .isTrue (by rw [h])
    else .isFalse (fun hh => h (by cases hh; rfl))
  | .ok _, .error _ => .isFalse (fun hh => by cases hh)
  | .error _, .ok _ => .isFalse (fun hh => by cases hh)

/-! ### Regex-engine lemmas used for the size-resolver claim -/

/-- Greedy star consumption: if every character of `a` is in the class, the
continuation succeeds at the point where the class first fails (the start
of `b`), and `b` does not begin with a class character, then matching the
star against `a ++ b` succeeds with that continuation value (the maximal
consumption is tried first and succeeds). -/
theorem tryStar_spec (p : Char → Bool) (k : List Char → Option Caps)
    (a b : List Char) (r : Caps)
    (ha : ∀ c ∈ a, p c = true)
    (hb : b = [] ∨ ∃ c bs, b = c :: bs ∧ p c = false)
    (hk : k b = some r) :
    tryStar p k (a ++ b) = some r := by
  induction a with
  | nil =>
    simp only [List.nil_append]
    rcases hb with rfl | ⟨c, bs, rfl, hc⟩
    · simpa [tryStar] using hk
    · simpa [tryStar, hc] using hk
  | cons c a' ih =>
    have hc : p c = true := ha c (List.mem_cons_self c a')
    have ih' := ih (fun d hd => ha d (List.mem_cons_of_mem c hd))
    simp only [List.cons_append, tryStar, hc, if_true, List.append_eq]
    rw [ih']
    rfl

/-- Matching `^([\d\.]+)(.*)$` against `<number><unit>` where the number part
is non-empty and drawn from `[\d\.]` and the unit part starts with a
non-`[\d\.]` character (and contains no newline): group 1 captures exactly
the number part and group 2 exactly the unit part. -/
theorem pyMatch_parse_size (numS unitS : List Char)
    (hne : numS ≠ [])
    (hnum : ∀ c ∈ numS, digitDotC c = true)
    (hunit : ∀ c ∈ unitS, digitDotC c = false ∧ dotC c = true) :
    pyMatch parse_size_format (numS ++ unitS) = some [(2, unitS), (1, numS)] := by
  obtain ⟨c0, n0, rfl⟩ : ∃ c0 n0, numS = c0 :: n0 := by
    cases numS with
    | nil => exact absurd rfl hne
    | cons c0 n0 => exact ⟨c0, n0, rfl⟩
  have hc0 : digitDotC c0 = true := hnum c0 (List.mem_cons_self _ _)
  simp only [pyMatch, parse_size_format, seqs, List.foldr, plusCh, matchRe,
    List.cons_append, hc0, if_true]
  refine tryStar_spec _ _ n0 unitS _
    (fun d hd => hnum d (List.mem_cons_of_mem _ hd)) ?_ ?_
  · cases unitS with
    | nil => exact Or.inl rfl
    | cons c bs => exact Or.inr ⟨c, bs, rfl, (hunit c (List.mem_cons_self _ _)).1⟩
  · have htake : (c0 :: (n0 ++ unitS)).take ((c0 :: (n0 ++ unitS)).length - unitS.length)
        = c0 :: n0 := by
      have h : c0 :: (n0 ++ unitS) = (c0 :: n0) ++ unitS := by simp
      rw [h, List.length_append, Nat.add_sub_cancel, List.take_left]
    simp only [matchRe, htake]
    have hstar := tryStar_spec dotC
      (fun s' => matchRe (RE.seq RE.endA RE.emp) s'
        ((2, unitS.take (unitS.length - s'.length)) :: [(1, c0 :: n0)])
        (fun _ caps => some caps))
      unitS [] [(2, unitS), (1, c0 :: n0)]
      (fun d hd => (hunit d hd).2) (Or.inl rfl) ?_
    · simpa using hstar
    · simp [matchRe]

/-- Grid rounding of a non-negative value is non-negative. -/
theorem roundGrid_nonneg (ulp q : ℚ) (hu : 0 < ulp) (hq : 0 ≤ q) :
    0 ≤ roundGrid ulp q := by
  have h0 : (0 : ℚ) ≤ (⌊q / ulp⌋ : ℚ) := by
    exact_mod_cast Int.floor_nonneg.mpr (div_nonneg hq hu.le)
  unfold roundGrid
  split_ifs <;> exact mul_nonneg (by linarith) hu.le

/-- Binary64 rounding of a non-negative value is non-negative. -/
theorem roundB64_nonneg (q : ℚ) (hq : 0 ≤ q) : 0 ≤ roundB64 q := by
  unfold roundB64
  rcases eq_or_lt_of_le hq with h | h
  · rw [if_pos h.symm]
  · rw [if_neg (ne_of_gt h), if_pos h]
    exact roundGrid_nonneg _ _ (by positivity) hq

/-- Pinning down `⌊log₂ q⌋` from a bracketing pair of powers of two. -/
theorem int_log2_eq (q : ℚ) (L : ℤ) (hq0 : 0 < q)
    (h1 : (2 : ℚ) ^ L ≤ q) (h2 : q < (2 : ℚ) ^ (L + 1)) :
    Int.log 2 q = L := by
  have hle : L ≤ Int.log 2 q := by
    rw [← Int.zpow_le_iff_le_log one_lt_two hq0]
    push_cast
    exact h1
  have hlt : Int.log 2 q < L + 1 := by
    rw [← Int.lt_zpow_iff_log_lt one_lt_two hq0]
    push_cast
    exact h2
  omega

/-- Evaluation of `roundB64` in the round-down (or exact) case, stated with
natural-number powers only: `L = ⌊log₂ q⌋ ≤ 52` is certified by the two
bounds, `n` is the scaled mantissa `⌊q · 2^(52-L)⌋`, the fractional part is
below one half, and `v = n · 2^(L-52)` is the rounded value. -/
theorem roundB64_eval (q v : ℚ) (L : ℕ) (n : ℤ)
    (hq0 : 0 < q) (hL : L ≤ 52)
    (h1 : (2 : ℚ) ^ L ≤ q) (h2 : q < (2 : ℚ) ^ (L + 1))
    (hn : ⌊q * (2 : ℚ) ^ (52 - L)⌋ = n)
    (hfr : q * (2 : ℚ) ^ (52 - L) - (n : ℚ) < 1 / 2)
    (hv : (n : ℚ) = v * (2 : ℚ) ^ (52 - L)) :
    roundB64 q = v := by
  have hlog : Int.log 2 q = (L : ℤ) := by
    apply int_log2_eq q (L : ℤ) hq0
    · rw [zpow_natCast]
      exact h1
    · rw [show ((L : ℤ) + 1) = ((L + 1 : ℕ) : ℤ) from by push_cast; ring, zpow_natCast]
      exact h2
  have hud : (2 : ℚ) ^ ((L : ℤ) - 52) = ((2 : ℚ) ^ (52 - L))⁻¹ := by
    rw [show (L : ℤ) - 52 = -((52 - L : ℕ) : ℤ) from by omega, zpow_neg, zpow_natCast]
  have hqd : q / (2 : ℚ) ^ ((L : ℤ) - 52) = q * (2 : ℚ) ^ (52 - L) := by
    rw [hud, div_eq_mul_inv, inv_inv]
  unfold roundB64 roundGrid
  rw [if_neg (ne_of_gt hq0), if_pos hq0, hlog, hqd, hn, if_pos hfr, hud, hv]
  have hp : ((2 : ℚ) ^ (52 - L)) ≠ 0 := by positivity
  field_simp

/-- A value lying exactly on its binade's grid is its own double. -/
theorem roundB64_exact (q : ℚ) (L : ℕ) (n : ℤ)
    (hq0 : 0 < q) (hL : L ≤ 52)
    (h1 : (2 : ℚ) ^ L ≤ q) (h2 : q < (2 : ℚ) ^ (L + 1))
    (hq : q * (2 : ℚ) ^ (52 - L) = (n : ℚ)) :
    roundB64 q = q := by
  refine roundB64_eval q q L n hq0 hL h1 h2 ?_ ?_ hq.symm
  · rw [hq]
    exact Int.floor_intCast n
  · rw [hq]
    norm_num

/-- Every positive integer below 2⁵³ is its own double. -/
theorem roundB64_intval (z : ℤ) (L : ℕ) (h0 : 0 < z) (hL : L ≤ 52)
    (h1 : (2 : ℚ) ^ L ≤ (z : ℚ)) (h2 : ((z : ℚ)) < (2 : ℚ) ^ (L + 1)) :
    roundB64 ((z : ℚ)) = (z : ℚ) := by
  refine roundB64_exact ((z : ℚ)) L (z * 2 ^ (52 - L)) (by exact_mod_cast h0) hL h1 h2 ?_
  push_cast
  ring

/-- Python's `int()` is the identity on integer-valued rationals. -/
theorem pyInt_intCast (z : ℤ) : pyInt ((z : ℚ)) = z := by
  unfold pyInt
  split_ifs with h
  · exact Int.floor_intCast z
  · rw [← Int.cast_neg, Int.floor_intCast, neg_neg]

/-- The value `float()` returns on a `[\d\.]+` numeral is non-negative. -/
theorem pyFloat_nonneg (s : List Char) (q : ℚ) (h : pyFloat s = some q) : 0 ≤ q := by
  unfold pyFloat at h
  split_ifs at h <;>
    first
      | exact Option.noConfusion h
      | (rw [← Option.some.inj h]; exact roundB64_nonneg _ (by positivity))

/-- Evaluation rule for `float()` on a dot-free numeral. -/
theorem pyFloat_nodot (s : List Char) (h0 : List.count '.' s = 0) (h1 : s ≠ []) :
    pyFloat s = some (roundB64 ((natDigits s : ℚ))) := by
  unfold pyFloat
  rw [h0]
  simp [h1]

/-- Evaluation rule for `float()` on a numeral with one dot. -/
theorem pyFloat_dot (s a b : List Char) (hc : List.count '.' s = 1)
    (hta : s.takeWhile (fun c => c != '.') = a)
    (htb : (s.dropWhile (fun c => c != '.')).tail = b)
    (hne : ¬(a = [] ∧ b = [])) :
    pyFloat s
      = some (roundB64 ((natDigits a : ℚ) + (natDigits b : ℚ) / (10 : ℚ) ^ b.length)) := by
  unfold pyFloat
  rw [hc, hta, htb]
  simp [hne]

/-- General behaviour of `_parse_size` on a well-formed `<number><unit>`
token: the result is the truncation of the rounded double product of the
numeral's double value `q` and the unit multiplier. -/
theorem parse_size_spec (numS unitS : List Char) (q : ℚ) (u : Nat)
    (hne : numS ≠ [])
    (hnum : ∀ c ∈ numS, digitDotC c = true)
    (hunit : ∀ c ∈ unitS, digitDotC c = false ∧ dotC c = true)
    (hq : pyFloat numS = some q)
    (hu : unitMult (unitS.map Char.toLower) = some u) :
    _parse_size (numS ++ unitS) = .ok (pyInt (roundB64 (q * (u : ℚ)))) := by
  have hmatch := pyMatch_parse_size numS unitS hne hnum hunit
  unfold _parse_size
  rw [hmatch]
  have hl1 : List.lookup 1 ([(2, unitS), (1, numS)] : Caps) = some numS := by
    simp [List.lookup]
  have hl2 : List.lookup 2 ([(2, unitS), (1, numS)] : Caps) = some unitS := by
    simp [List.lookup]
  simp only [hl1, hl2, Option.getD_some, hq, hu]

/-- Concrete-token corollary of `parse_size_spec`: when the numeral's
double `roundB64 q0` equals `q0` itself (the mantissa is exactly
representable) and the double product rounds to the integer `z`, the
resolver returns `z`. -/
theorem parse_size_eval (tok numS unitS : List Char) (q0 : ℚ) (u : Nat) (z : ℤ)
    (htok : tok = numS ++ unitS)
    (hne : numS ≠ [])
    (hnum : ∀ c ∈ numS, digitDotC c = true)
    (hunit : ∀ c ∈ unitS, digitDotC c = false ∧ dotC c = true)
    (hq : pyFloat numS = some (roundB64 q0))
    (hu : unitMult (unitS.map Char.toLower) = some u)
    (hm : roundB64 q0 = q0)
    (hp : roundB64 (q0 * (u : ℚ)) = ((z : ℤ) : ℚ)) :
    _parse_size tok = .ok z := by
  subst htok
  rw [parse_size_spec numS unitS (roundB64 q0) u hne hnum hunit hq hu, hm, hp,
    pyInt_intCast]

/-- Integer-mantissa instance of `parse_size_eval`: a dot-free numeral of
value `zm` (binade exponent `Lm`) times multiplier `u` gives exactly the
integer `z` (binade exponent `Lz`); both stages of rounding are the
identity because both values are integers below 2⁵³. -/
theorem parse_size_eval_int (tok numS unitS : List Char) (zm : ℤ) (Lm : ℕ)
    (u : Nat) (z : ℤ) (Lz : ℕ)
    (htok : tok = numS ++ unitS)
    (hne : numS ≠ [])
    (hnum : ∀ c ∈ numS, digitDotC c = true)
    (hunit : ∀ c ∈ unitS, digitDotC c = false ∧ dotC c = true)
    (hnd : List.count '.' numS = 0)
    (hval : ((natDigits numS : ℚ)) = ((zm : ℚ)))
    (hu : unitMult (unitS.map Char.toLower) = some u)
    (hm0 : 0 < zm) (hLm : Lm ≤ 52)
    (hm1 : (2 : ℚ) ^ Lm ≤ ((zm : ℚ))) (hm2 : ((zm : ℚ)) < (2 : ℚ) ^ (Lm + 1))
    (hprod : ((zm : ℚ)) * ((u : ℕ) : ℚ) = ((z : ℚ)))
    (hz0 : 0 < z) (hLz : Lz ≤ 52)
    (hz1 : (2 : ℚ) ^ Lz ≤ ((z : ℚ))) (hz2 : ((z : ℚ)) < (2 : ℚ) ^ (Lz + 1)) :
    _parse_size tok = .ok z := by
  refine parse_size_eval tok numS unitS ((zm : ℚ)) u z htok hne hnum hunit ?_ hu ?_ ?_
  · rw [pyFloat_nodot _ hnd hne, hval]
  · exact roundB64_intval zm Lm hm0 hLm hm1 hm2
  · rw [hprod]
    exact roundB64_intval z Lz hz0 hLz hz1 hz2

/-- Counterexample for C2 as stated: on the token `1.001kb` the resolver
returns 1000, not the truncation 1001 of the exact product
1.001 × 1000: the double nearest 1.001 is 2254051613498933/2²⁵¹ (slightly
below 1.001), its rounded double product with 1000 is
8804889115230207/2⁴³ (slightly below 1001), and `int()` truncates it to
1000 - exactly CPython's `int(float("1.001") * 1000)`. -/
theorem c2_counterexample :
    _parse_size ("1.001kb".data) = .ok 1000 ∧
    _parse_size ("1.001kb".data) ≠ .ok ⌊((1001 : ℚ) / 1000) * 1000⌋ := by
  have hq : pyFloat ("1.001".data) = some (roundB64 ((1001 : ℚ) / 1000)) := by
    rw [pyFloat_dot _ "1".data "001".data (by decide) (by decide) (by decide) (by decide),
      show ((natDigits ("1".data) : ℚ)
          + (natDigits ("001".data) : ℚ) / (10 : ℚ) ^ (List.length ("001".data)))
        = (1001 : ℚ) / 1000 from by
        norm_num [(by decide : natDigits ("1".data) = 1),
          (by decide : natDigits ("001".data) = 1),
          (by decide : List.length ("001".data) = 3)]]
  have hv : roundB64 ((1001 : ℚ) / 1000)
      = (2254051613498933 : ℚ) / 2251799813685248 := by
    refine roundB64_eval _ _ 0 4508103226997866 (by norm_num) (by norm_num)
      (by norm_num) (by norm_num) ?_ (by norm_num) (by norm_num)
    exact Int.floor_eq_iff.mpr ⟨by norm_num, by norm_num⟩
  have hw : roundB64 ((2254051613498933 : ℚ) / 2251799813685248 * ((1000 : ℕ) : ℚ))
      = (8804889115230207 : ℚ) / 8796093022208 := by
    refine roundB64_eval _ _ 9 8804889115230207 (by norm_num) (by norm_num)
      (by norm_num) (by norm_num) ?_ (by norm_num) (by norm_num)
    exact Int.floor_eq_iff.mpr ⟨by norm_num, by norm_num⟩
  have h1000 : pyInt ((8804889115230207 : ℚ) / 8796093022208) = 1000 := by
    unfold pyInt
    rw [if_pos (by norm_num)]
    exact Int.floor_eq_iff.mpr ⟨by norm_num, by norm_num⟩
  have hs := parse_size_spec "1.001".data "kb".data (roundB64 ((1001 : ℚ) / 1000)) 1000
    (by decide) (by decide) (by decide) hq (by decide)
  have htok : ("1.001kb".data) = "1.001".data ++ "kb".data := by decide
  constructor
  · rw [htok, hs, hv, hw, h1000]
  · rw [htok, hs, hv, hw, h1000,
      show ((1001 : ℚ) / 1000) * 1000 = ((1001 : ℤ) : ℚ) from by norm_num,
      Int.floor_intCast]
    decide

/-- C2 (amended): for every size token `<number><unit>` - number a
non-empty `[\d\.]` numeral whose binary64 value is `q`, unit one of the
known units (case-insensitive via the lowercasing lookup) with multiplier
`u` - `_parse_size` returns the truncation (`int()`, toward zero; never a
rounding: on non-negative values it is the floor) of the IEEE-double
product of `q` and `u`; this equals the truncation of the exact product
whenever the numeral's value and the product are exactly representable as
doubles, which holds for all seven of the claim's example tokens. -/
theorem c2_parse_size_float_truncation :
    (∀ (numS unitS : List Char) (q : ℚ) (u : Nat),
      numS ≠ [] →
      (∀ c ∈ numS, digitDotC c = true) →
      (∀ c ∈ unitS, digitDotC c = false ∧ dotC c = true) →
      pyFloat numS = some q →
      unitMult (unitS.map Char.toLower) = some u →
      _parse_size (numS ++ unitS) = .ok (pyInt (roundB64 (q * (u : ℚ))))) ∧
    (∀ x : ℚ, 0 ≤ x → pyInt x = ⌊x⌋) ∧
    _parse_size ("5.5".data) = .ok 5500000 ∧
    _parse_size ("100KB".data) = .ok 100000 ∧
    _parse_size ("1KiB".data) = .ok 1024 ∧
    _parse_size ("1MB".data) = .ok 1000000 ∧
    _parse_size ("1MiB".data) = .ok 1048576 ∧
    _parse_size ("1.5MiB".data) = .ok 1572864 ∧
    _parse_size ("1.75GiB".data) = .ok 1879048192 := by
  refine ⟨fun numS unitS q u hne hnum hunit hq hu =>
    parse_size_spec numS unitS q u hne hnum hunit hq hu,
    fun x hx => by unfold pyInt; rw [if_pos hx],
    ?_, ?_, ?_, ?_, ?_, ?_, ?_⟩
  · have hq : pyFloat ("5.5".data) = some (roundB64 ((11 : ℚ) / 2)) := by
      rw [pyFloat_dot _ "5".data "5".data (by decide) (by decide) (by decide) (by decide),
        show ((natDigits ("5".data) : ℚ)
            + (natDigits ("5".data) : ℚ) / (10 : ℚ) ^ (List.length ("5".data)))
          = (11 : ℚ) / 2 from by
          norm_num [(by decide : natDigits ("5".data) = 5),
            (by decide : List.length ("5".data) = 1)]]
    refine parse_size_eval "5.5".data "5.5".data [] ((11 : ℚ) / 2) 1000000 5500000
      (by decide) (by decide) (by decide) (by decide) hq (by decide) ?_ ?_
    · exact roundB64_exact _ 2 (11 * 2 ^ 49) (by norm_num) (by norm_num) (by norm_num)
        (by norm_num) (by push_cast; norm_num)
    · rw [show ((11 : ℚ) / 2) * ((1000000 : ℕ) : ℚ) = ((5500000 : ℤ) : ℚ) from by norm_num]
      exact roundB64_intval 5500000 22 (by norm_num) (by norm_num) (by norm_num)
        (by norm_num)
  · exact parse_size_eval_int "100KB".data "100".data "KB".data 100 6 1000 100000 16
      (by decide) (by decide) (by decide) (by decide) (by decide)
      (by norm_num [(by decide : natDigits ("100".data) = 100)]) (by decide)
      (by norm_num) (by norm_num) (by norm_num) (by norm_num) (by norm_num)
      (by norm_num) (by norm_num) (by norm_num) (by norm_num)
  · exact parse_size_eval_int "1KiB".data "1".data "KiB".data 1 0 1024 1024 10
      (by decide) (by decide) (by decide) (by decide) (by decide)
      (by norm_num [(by decide : natDigits ("1".data) = 1)]) (by decide)
      (by norm_num) (by norm_num) (by norm_num) (by norm_num) (by norm_num)
      (by norm_num) (by norm_num) (by norm_num) (by norm_num)
  · exact parse_size_eval_int "1MB".data "1".data "MB".data 1 0 1000000 1000000 19
      (by decide) (by decide) (by decide) (by decide) (by decide)
      (by norm_num [(by decide : natDigits ("1".data) = 1)]) (by decide)
      (by norm_num) (by norm_num) (by norm_num) (by norm_num) (by norm_num)
      (by norm_num) (by norm_num) (by norm_num) (by norm_num)
  · exact parse_size_eval_int "1MiB".data "1".data "MiB".data 1 0 1048576 1048576 20
      (by decide) (by decide) (by decide) (by decide) (by decide)
      (by norm_num [(by decide : natDigits ("1".data) = 1)]) (by decide)
      (by norm_num) (by norm_num) (by norm_num) (by norm_num) (by norm_num)
      (by norm_num) (by norm_num) (by norm_num) (by norm_num)
  · have hq : pyFloat ("1.5".data) = some (roundB64 ((3 : ℚ) / 2)) := by
      rw [pyFloat_dot _ "1".data "5".data (by decide) (by decide) (by decide) (by decide),
        show ((natDigits ("1".data) : ℚ)
            + (natDigits ("5".data) : ℚ) / (10 : ℚ) ^ (List.length ("5".data)))
          = (3 : ℚ) / 2 from by
          norm_num [(by decide : natDigits ("1".data) = 1),
            (by decide : natDigits ("5".data) = 5),
            (by decide : List.length ("5".data) = 1)]]
    refine parse_size_eval "1.5MiB".data "1.5".data "MiB".data ((3 : ℚ) / 2)
      1048576 1572864
      (by decide) (by decide) (by decide) (by decide) hq (by decide) ?_ ?_
    · exact roundB64_exact _ 0 (3 * 2 ^ 51) (by norm_num) (by norm_num) (by norm_num)
        (by norm_num) (by push_cast; norm_num)
    · rw [show ((3 : ℚ) / 2) * ((1048576 : ℕ) : ℚ) = ((1572864 : ℤ) : ℚ) from by norm_num]
      exact roundB64_intval 1572864 20 (by norm_num) (by norm_num) (by norm_num)
        (by norm_num)
  · have hq : pyFloat ("1.75".data) = some (roundB64 ((7 : ℚ) / 4)) := by
      rw [pyFloat_dot _ "1".data "75".data (by decide) (by decide) (by decide) (by decide),
        show ((natDigits ("1".data) : ℚ)
            + (natDigits ("75".data) : ℚ) / (10 : ℚ) ^ (List.length ("75".data)))
          = (7 : ℚ) / 4 from by
          norm_num [(by decide : natDigits ("1".data) = 1),
            (by decide : natDigits ("75".data) = 75),
            (by decide : List.length ("75".data) = 2)]]
    refine parse_size_eval "1.75GiB".data "1.75".data "GiB".data ((7 : ℚ) / 4)
      1073741824 1879048192
      (by decide) (by decide) (by decide) (by decide) hq (by decide) ?_ ?_
    · exact roundB64_exact _ 0 (7 * 2 ^ 50) (by norm_num) (by norm_num) (by norm_num)
        (by norm_num) (by push_cast; norm_num)
    · rw [show ((7 : ℚ) / 4) * ((1073741824 : ℕ) : ℚ) = ((1879048192 : ℤ) : ℚ) from
        by norm_num]
      exact roundB64_intval 1879048192 30 (by norm_num) (by norm_num) (by norm_num)
        (by norm_num)

/-- Witness for C2 (amended): the general statement applied to the token
`1.75GiB`, split as number `1.75` (double value exactly 7/4) and unit
`GiB` (multiplier 1024³), every hypothesis discharged by evaluation. -/
theorem c2_parse_size_float_truncation_witness :
    _parse_size ("1.75GiB".data) = .ok 1879048192 := by
  have hq : pyFloat ("1.75".data) = some (roundB64 ((7 : ℚ) / 4)) := by
    rw [pyFloat_dot _ "1".data "75".data (by decide) (by decide) (by decide) (by decide),
      show ((natDigits ("1".data) : ℚ)
          + (natDigits ("75".data) : ℚ) / (10 : ℚ) ^ (List.length ("75".data)))
        = (7 : ℚ) / 4 from by
        norm_num [(by decide : natDigits ("1".data) = 1),
          (by decide : natDigits ("75".data) = 75),
          (by decide : List.length ("75".data) = 2)]]
  have h := c2_parse_size_float_truncation.1 "1.75".data "GiB".data
    (roundB64 ((7 : ℚ) / 4)) 1073741824 (by decide) (by decide) (by decide) hq (by decide)
  have hm : roundB64 ((7 : ℚ) / 4) = (7 : ℚ) / 4 :=
    roundB64_exact _ 0 (7 * 2 ^ 50) (by norm_num) (by norm_num) (by norm_num)
      (by norm_num) (by push_cast; norm_num)
  rw [show ("1.75GiB".data) = "1.75".data ++ "GiB".data from by decide, h, hm,
    show ((7 : ℚ) / 4) * ((1073741824 : ℕ) : ℚ) = ((1879048192 : ℤ) : ℚ) from by norm_num,
    roundB64_intval 1879048192 30 (by norm_num) (by norm_num) (by norm_num) (by norm_num),
    pyInt_intCast]

/-- C8 (amended): a token rejected by the pattern `^([\d\.]+)(.*)$`
(including `100%`, whose unit `%` is unknown) fails with
`PartitionSizeParseException`, as does a token whose unit is not in the
dictionary; but a token whose `[\d\.]+` numeric part is not a valid decimal
numeral makes `float()` raise an uncaught `ValueError` instead. -/
theorem c8_size_error_taxonomy :
    (∀ s, pyMatch parse_size_format s = none → _parse_size s = .error .sizeParse) ∧
    (∀ s m, pyMatch parse_size_format s = some m →
      pyFloat ((m.lookup 1).getD []) = none → _parse_size s = .error .valueError) ∧
    (∀ s m q, pyMatch parse_size_format s = some m →
      pyFloat ((m.lookup 1).getD []) = some q →
      unitMult (((m.lookup 2).getD []).map Char.toLower) = none →
      _parse_size s = .error .sizeParse) ∧
    _parse_size ("100%".data) = .error .sizeParse := by
  refine ⟨?_, ?_, ?_, by decide⟩
  · intro s h
    unfold _parse_size
    rw [h]
  · intro s m h hf
    unfold _parse_size
    simp only [h, hf]
  · intro s m q h hf hu
    unfold _parse_size
    simp only [h, hf, hu]

/-- Counterexample for C8 as stated: the token `1.2.3MB` has a malformed
number, yet `_parse_size` fails with `ValueError` (from `float("1.2.3")`),
not with `PartitionSizeParseException`. -/
theorem c8_counterexample :
    _parse_size ("1.2.3MB".data) = .error .valueError ∧
    _parse_size ("1.2.3MB".data) ≠ .error .sizeParse := by
  constructor <;> decide

/-- Witness for C8 (amended): the first branch applied to the concrete
token `zz`, which the numeric pattern rejects. -/
theorem c8_size_error_taxonomy_witness :
    _parse_size ("zz".data) = .error .sizeParse :=
  c8_size_error_taxonomy.1 ("zz".data) (by decide)

/-- C5: on an empty directory listing the code raises `IndexError` (from
`files[0]` inside `_try_get_partitions_long_format`) before the
empty-collection check can raise `PartitionsNotFoundException`; the
claimed `NoPartitionsFoundError` is never reached. -/
theorem c5_empty_directory_indexerror :
    from_directory [] = .error .indexError ∧
    from_directory [] ≠ .error .partitionsNotFound := by
  constructor <;> decide

/-- C7: the `(\.tar|\.tar\.gz)?` group at the end of the long-format pattern
is dead: the greedy `(?P<parted>.*)` consumes the suffix, so the captured
script fragment retains the trailing `.tar` instead of having it
stripped. -/
theorem c7_tar_suffix_not_stripped :
    _try_get_partitions_long_format
        ["partition01 -- parted mklabel gpt mkpart primary fat32 1MiB 8MiB.tar".data]
      = .ok [⟨"partition01 -- parted mklabel gpt mkpart primary fat32 1MiB 8MiB.tar".data,
             "mklabel gpt mkpart primary fat32 1MiB 8MiB.tar".data, "fat32".data⟩] ∧
    List.isSuffixOf (".tar".data)
      ("mklabel gpt mkpart primary fat32 1MiB 8MiB.tar".data) = true := by
  constructor <;> decide

/-- The expected synthesis produces one descriptor per file. -/
theorem shortSpecSynthesis_length (lastIdx : Nat) (rest : List (List Char)) :
    ∀ (i : Nat) (prevEnd : List Char),
      (shortSpecSynthesis lastIdx i prevEnd rest).length = rest.length := by
  induction rest with
  | nil => intro i prevEnd; rfl
  | cons f rest ih => intro i prevEnd; simp [shortSpecSynthesis, ih]

/-- The source's synthesis loop agrees with the expected synthesis whenever
every filename matches the short-format pattern. -/
theorem short_loop_eq_spec (lastIdx : Nat) (rest : List (List Char)) :
    ∀ (i : Nat) (prevEnd : List Char),
      (∀ f ∈ rest, (pyMatch short_format f).isSome) →
      _try_get_partitions_short_format_loop lastIdx i prevEnd rest
        = .ok (shortSpecSynthesis lastIdx i prevEnd rest) := by
  induction rest with
  | nil => intro i prevEnd _; rfl
  | cons f rest ih =>
    intro i prevEnd hall
    obtain ⟨m, hm⟩ := Option.isSome_iff_exists.mp (hall f (List.mem_cons_self f rest))
    have hend : (m.lookup 3).getD [] = shortEndTok f := by
      simp [shortEndTok, shortCapsOf, hm]
    have hfs : (m.lookup 4).getD [] = shortFsTok f := by
      simp [shortFsTok, shortCapsOf, hm]
    have hms : (m.lookup 2).isSome = shortHasMsdos f := by
      simp [shortHasMsdos, shortCapsOf, hm]
    have ih' := ih (i + 1) (if lastIdx = i then pct100 else shortEndTok f)
      (fun g hg => hall g (List.mem_cons_of_mem f hg))
    simp only [_try_get_partitions_short_format_loop, hm, hend, hfs, hms, ih',
      shortSpecSynthesis, Except.map]

/-- Element `j` of the expected synthesis: filename and fstype from the
file's own match; start = the caller's `prevEnd` at index 0 and otherwise
the previous file's declared end (or the overridden `100%` when the
previous index was the last one, impossible in an aligned call); end =
declared end except `100%` at the last index; first-fragment shape exactly
at absolute index 0. -/
theorem shortSpecSynthesis_getD (lastIdx : Nat) (rest : List (List Char)) :
    ∀ (i : Nat) (prevEnd : List Char) (j : Nat), j < rest.length →
      (shortSpecSynthesis lastIdx i prevEnd rest).getD j pdflt =
        Partition.mk (rest.getD j [])
          (if i + j = 0 then
            firstFrag (if shortHasMsdos (rest.getD j []) then "msdos".data else "gpt".data)
              (shortFsTok (rest.getD j []))
              (if j = 0 then prevEnd
               else if lastIdx + 1 = i + j then pct100 else shortEndTok (rest.getD (j - 1) []))
              (if lastIdx = i + j then pct100 else shortEndTok (rest.getD j []))
           else
            restFrag (shortFsTok (rest.getD j []))
              (if j = 0 then prevEnd
               else if lastIdx + 1 = i + j then pct100 else shortEndTok (rest.getD (j - 1) []))
              (if lastIdx = i + j then pct100 else shortEndTok (rest.getD j [])))
          (shortFsTok (rest.getD j [])) := by
  induction rest with
  | nil => intro i prevEnd j hj; exact absurd hj (by simp)
  | cons f rest ih =>
    intro i prevEnd j hj
    cases j with
    | zero => simp [shortSpecSynthesis]
    | succ jj =>
      have hj' : jj < rest.length := by simpa using hj
      have ih' := ih (i + 1) (if lastIdx = i then pct100 else shortEndTok f) jj hj'
      simp only [shortSpecSynthesis, List.getD_cons_succ]
      rw [ih', show i + 1 + jj = i + (jj + 1) from by omega]
      cases jj with
      | zero => simp
      | succ k => simp

/-- C1: for every non-empty list of filenames all matching the short-format
pattern, the builder succeeds with one descriptor per file in order; the
first descriptor's fragment is `unit s mklabel <gpt|msdos> mkpart primary
<fstype> 1MiB <end> set 1 boot on` (msdos iff the first filename carries
the marker, end = the declared end-offset unless the first file is also the
last, where the `100%` override applies); every later descriptor's fragment
is `mkpart primary <fstype> <start> <end>` with start the previous file's
declared (un-forced) end token and end forced to `100%` exactly on the last
file; and on the claim's two example files the two fragments are exactly
the claimed strings. -/
theorem c1_short_format_synthesis :
    (∀ (files : List (List Char)), files ≠ [] →
      (∀ f ∈ files, (pyMatch short_format f).isSome) →
      ∃ ps, _try_get_partitions_short_format files = .ok ps ∧
        ps.length = files.length ∧
        (∀ j, j < files.length →
          (ps.getD j pdflt).filename = files.getD j [] ∧
          (ps.getD j pdflt).fstype = shortFsTok (files.getD j [])) ∧
        ((ps.getD 0 pdflt).parted =
          firstFrag (if shortHasMsdos (files.getD 0 []) then "msdos".data else "gpt".data)
            (shortFsTok (files.getD 0 [])) oneMiB
            (if files.length = 1 then pct100 else shortEndTok (files.getD 0 []))) ∧
        (∀ j, 0 < j → j < files.length →
          (ps.getD j pdflt).parted =
            restFrag (shortFsTok (files.getD j []))
              (shortEndTok (files.getD (j - 1) []))
              (if j = files.length - 1 then pct100 else shortEndTok (files.getD j [])))) ∧
    _try_get_partitions_short_format
        ["partition01_8MiB_fat32".data, "partition02_16GiB_ext4".data] =
      .ok [⟨"partition01_8MiB_fat32".data,
            "unit s mklabel gpt mkpart primary fat32 1MiB 8MiB set 1 boot on".data,
            "fat32".data⟩,
           ⟨"partition02_16GiB_ext4".data,
            "mkpart primary ext4 8MiB 100%".data,
            "ext4".data⟩] := by
  refine ⟨?_, by decide⟩
  intro files hne hall
  obtain ⟨f0, rest, rfl⟩ := List.exists_cons_of_ne_nil hne
  have h0 : (pyMatch short_format f0).isSome = true := hall f0 (List.mem_cons_self f0 rest)
  have hlen1 : (f0 :: rest).length - 1 = rest.length := by simp
  have hbuild : _try_get_partitions_short_format (f0 :: rest)
      = .ok (shortSpecSynthesis rest.length 0 oneMiB (f0 :: rest)) := by
    simp only [_try_get_partitions_short_format, h0, eq_self_iff_true, if_true, hlen1]
    exact short_loop_eq_spec rest.length (f0 :: rest) 0 oneMiB hall
  refine ⟨_, hbuild, shortSpecSynthesis_length rest.length (f0 :: rest) 0 oneMiB, ?_, ?_, ?_⟩
  · intro j hj
    rw [shortSpecSynthesis_getD rest.length (f0 :: rest) 0 oneMiB j hj]
    exact ⟨rfl, rfl⟩
  · have h0lt : 0 < (f0 :: rest).length := by simp
    rw [shortSpecSynthesis_getD rest.length (f0 :: rest) 0 oneMiB 0 h0lt]
    simp only [Nat.add_zero, List.length_cons, List.getD_cons_zero,
      show ((rest.length + 1 = 1)) ↔ (rest.length = 0) from by omega]
    simp
  · intro j hj0 hj
    have hj' : j < rest.length + 1 := by simpa using hj
    rw [shortSpecSynthesis_getD rest.length (f0 :: rest) 0 oneMiB j hj]
    simp only [Nat.zero_add, List.length_cons, Nat.add_sub_cancel,
      if_neg (show ¬ (j = 0) from by omega),
      if_neg (show ¬ (rest.length + 1 = j) from by omega),
      show (rest.length = j) ↔ (j = rest.length) from eq_comm]

/-- Witness for C1: the general statement applied to the two example
filenames, hypotheses discharged by evaluation. -/
theorem c1_short_format_synthesis_witness :
    ∃ ps, _try_get_partitions_short_format
        ["partition01_8MiB_fat32".data, "partition02_16GiB_ext4".data] = .ok ps ∧
      ps.length = 2 := by
  obtain ⟨ps, h1, h2, -, -, -⟩ := c1_short_format_synthesis.1
    ["partition01_8MiB_fat32".data, "partition02_16GiB_ext4".data] (by decide) (by decide)
  exact ⟨ps, h1, by simpa using h2⟩

/-- The long-format loop yields one descriptor per file when it succeeds. -/
theorem long_loop_length (files : List (List Char)) :
    ∀ (ps : List Partition),
      _try_get_partitions_long_format_loop files = .ok ps → ps.length = files.length := by
  induction files with
  | nil =>
    intro ps h
    simp only [_try_get_partitions_long_format_loop] at h
    obtain rfl := (Except.ok.inj h).symm
    rfl
  | cons f rest ih =>
    intro ps h
    simp only [_try_get_partitions_long_format_loop] at h
    cases hm : pyMatch long_format f with
    | none => simp only [hm] at h; exact Except.noConfusion h
    | some m =>
      simp only [hm] at h
      cases hm2 : pyMatch long_format_fstype ((m.lookup 2).getD []) with
      | none => simp only [hm2] at h; exact Except.noConfusion h
      | some m2 =>
        simp only [hm2] at h
        cases hr : _try_get_partitions_long_format_loop rest with
        | error e => simp only [hr, Except.map] at h; exact Except.noConfusion h
        | ok ps' =>
          simp only [hr, Except.map] at h
          obtain rfl := (Except.ok.inj h).symm
          simp [ih ps' hr]

/-- The short-format loop yields one descriptor per file when it succeeds. -/
theorem short_loop_length (files : List (List Char)) :
    ∀ (lastIdx i : Nat) (prevEnd : List Char) (ps : List Partition),
      _try_get_partitions_short_format_loop lastIdx i prevEnd files = .ok ps →
      ps.length = files.length := by
  induction files with
  | nil =>
    intro lastIdx i prevEnd ps h
    simp only [_try_get_partitions_short_format_loop] at h
    obtain rfl := (Except.ok.inj h).symm
    rfl
  | cons f rest ih =>
    intro lastIdx i prevEnd ps h
    simp only [_try_get_partitions_short_format_loop] at h
    cases hm : pyMatch short_format f with
    | none => simp only [hm] at h; exact Except.noConfusion h
    | some m =>
      simp only [hm] at h
      cases hr : _try_get_partitions_short_format_loop lastIdx (i + 1)
          (if lastIdx = i then pct100 else (m.lookup 3).getD []) rest with
      | error e => simp only [hr, Except.map] at h; exact Except.noConfusion h
      | ok ps' =>
        simp only [hr, Except.map] at h
        obtain rfl := (Except.ok.inj h).symm
        simp [ih lastIdx (i + 1) _ ps' hr]

/-- A failing long-format loop names a file of the list that the long
pattern (or its fstype sub-pattern) rejects. -/
theorem long_loop_error (files : List (List Char)) :
    ∀ (e : PyErr),
      _try_get_partitions_long_format_loop files = .error e →
      ∃ f, f ∈ files ∧ e = .partitionParse f ∧
        (pyMatch long_format f = none ∨
          ∃ m, pyMatch long_format f = some m ∧
            pyMatch long_format_fstype ((m.lookup 2).getD []) = none) := by
  induction files with
  | nil =>
    intro e h
    simp only [_try_get_partitions_long_format_loop] at h
    exact Except.noConfusion h
  | cons f rest ih =>
    intro e h
    simp only [_try_get_partitions_long_format_loop] at h
    cases hm : pyMatch long_format f with
    | none =>
      simp only [hm] at h
      exact ⟨f, List.mem_cons_self f rest, (Except.error.inj h).symm, Or.inl hm⟩
    | some m =>
      simp only [hm] at h
      cases hm2 : pyMatch long_format_fstype ((m.lookup 2).getD []) with
      | none =>
        simp only [hm2] at h
        exact ⟨f, List.mem_cons_self f rest, (Except.error.inj h).symm,
          Or.inr ⟨m, hm, hm2⟩⟩
      | some m2 =>
        simp only [hm2] at h
        cases hr : _try_get_partitions_long_format_loop rest with
        | error e2 =>
          simp only [hr, Except.map] at h
          have he : e2 = e := Except.error.inj h
          obtain ⟨g, hg, hge, hwhy⟩ := ih e2 hr
          exact ⟨g, List.mem_cons_of_mem f hg, he ▸ hge, hwhy⟩
        | ok ps' =>
          simp only [hr, Except.map] at h
          exact Except.noConfusion h

/-- A failing short-format loop names a file of the list that the short
pattern rejects. -/
theorem short_loop_error (files : List (List Char)) :
    ∀ (lastIdx i : Nat) (prevEnd : List Char) (e : PyErr),
      _try_get_partitions_short_format_loop lastIdx i prevEnd files = .error e →
      ∃ f, f ∈ files ∧ e = .partitionParse f ∧ pyMatch short_format f = none := by
  induction files with
  | nil =>
    intro lastIdx i prevEnd e h
    simp only [_try_get_partitions_short_format_loop] at h
    exact Except.noConfusion h
  | cons f rest ih =>
    intro lastIdx i prevEnd e h
    simp only [_try_get_partitions_short_format_loop] at h
    cases hm : pyMatch short_format f with
    | none =>
      simp only [hm] at h
      exact ⟨f, List.mem_cons_self f rest, (Except.error.inj h).symm, hm⟩
    | some m =>
      simp only [hm] at h
      cases hr : _try_get_partitions_short_format_loop lastIdx (i + 1)
          (if lastIdx = i then pct100 else (m.lookup 3).getD []) rest with
      | error e2 =>
        simp only [hr, Except.map] at h
        have he : e2 = e := Except.error.inj h
        obtain ⟨g, hg, hge, hwhy⟩ := ih lastIdx (i + 1) _ e2 hr
        exact ⟨g, List.mem_cons_of_mem f hg, he ▸ hge, hwhy⟩
      | ok ps' =>
        simp only [hr, Except.map] at h
        exact Except.noConfusion h

/-- When the first sorted filename matches the long-format pattern, the
whole parse is the long-format parse (Python's `or` never evaluates the
short parser, and a successful long parse is non-empty so the final
emptiness check passes). -/
theorem from_directory_long (f0 : List Char) (rest : List (List Char))
    (h : (pyMatch long_format f0).isSome = true) :
    from_directory (f0 :: rest) = _try_get_partitions_long_format (f0 :: rest) := by
  unfold from_directory _try_get_partitions_long_format
  simp only [h, if_true]
  cases hr : _try_get_partitions_long_format_loop (f0 :: rest) with
  | error e => rfl
  | ok ps =>
    have hlen := long_loop_length (f0 :: rest) ps hr
    have hemp : ps.isEmpty = false := by
      cases ps with
      | nil => simp at hlen
      | cons a l => rfl
    simp [hemp, Bind.bind, Except.bind, Pure.pure, Except.pure]

/-- When the first sorted filename fails the long-format pattern but
matches the short-format pattern, the whole parse is the short-format
parse. -/
theorem from_directory_short (f0 : List Char) (rest : List (List Char))
    (hlong : pyMatch long_format f0 = none)
    (hshort : (pyMatch short_format f0).isSome = true) :
    from_directory (f0 :: rest) = _try_get_partitions_short_format (f0 :: rest) := by
  have hempty : _try_get_partitions_long_format (f0 :: rest) = .ok [] := by
    simp [_try_get_partitions_long_format, hlong]
  have hsdef : _try_get_partitions_short_format (f0 :: rest)
      = _try_get_partitions_short_format_loop ((f0 :: rest).length - 1) 0 oneMiB
          (f0 :: rest) := by
    simp only [_try_get_partitions_short_format, hshort, if_true]
  unfold from_directory
  rw [hempty, hsdef]
  cases hr : _try_get_partitions_short_format_loop ((f0 :: rest).length - 1) 0 oneMiB
      (f0 :: rest) with
  | error e => rfl
  | ok ps =>
    have hlen := short_loop_length (f0 :: rest) ((f0 :: rest).length - 1) 0 oneMiB ps hr
    have hemp : ps.isEmpty = false := by
      cases ps with
      | nil => simp at hlen
      | cons a l => rfl
    simp [hemp, Bind.bind, Except.bind, Pure.pure, Except.pure]

/-- Size resolution when the first filename carries the ` -- dd ` pattern:
only the first partition's filename is consulted. -/
theorem get_total_size_cons_long (p0 : Partition) (rest : List Partition) (m : Caps)
    (h : pyMatch total_size_long p0.filename = some m) :
    get_total_size (p0 :: rest) = _parse_size ((m.lookup 1).getD []) := by
  simp only [get_total_size, h]

/-- Size resolution when the first filename lacks the ` -- dd ` pattern and
the last filename matches the loose short pattern: the token following the
last `partitionNN` separator of the last filename is parsed. -/
theorem get_total_size_cons_short (p0 : Partition) (rest : List Partition) (m : Caps)
    (h1 : pyMatch total_size_long p0.filename = none)
    (h2 : pyMatch total_size_short (rest.getLastD p0).filename = some m) :
    get_total_size (p0 :: rest) = _parse_size ((m.lookup 2).getD []) := by
  simp only [get_total_size, h1, h2]

/-- Size resolution when both patterns fail. -/
theorem get_total_size_cons_fail (p0 : Partition) (rest : List Partition)
    (h1 : pyMatch total_size_long p0.filename = none)
    (h2 : pyMatch total_size_short (rest.getLastD p0).filename = none) :
    get_total_size (p0 :: rest) = .error .sizeParse := by
  simp only [get_total_size, h1, h2]

/-- The last filename of a descriptor list is the last of its filenames. -/
theorem getLastD_map_filename (l : List Partition) :
    ∀ (d : Partition),
      (l.map Partition.filename).getLastD d.filename = (l.getLastD d).filename := by
  induction l with
  | nil => intro d; rfl
  | cons a l ih => intro d; simp only [List.map_cons, List.getLastD_cons, ih a]

/-- `get_total_size` consults only the filenames of a collection, never the
synthesized script fragments (where the last partition's end shows as
`100%`) nor the fstypes. -/
theorem get_total_size_filenames_only (ps1 ps2 : List Partition)
    (hmap : ps1.map Partition.filename = ps2.map Partition.filename) :
    get_total_size ps1 = get_total_size ps2 := by
  cases ps1 with
  | nil =>
    cases ps2 with
    | nil => rfl
    | cons q l => simp at hmap
  | cons p01 rest1 =>
    cases ps2 with
    | nil => simp at hmap
    | cons p02 rest2 =>
      simp only [List.map_cons, List.cons.injEq] at hmap
      obtain ⟨h0, hrest⟩ := hmap
      have hlast : (rest1.getLastD p01).filename = (rest2.getLastD p02).filename := by
        rw [← getLastD_map_filename, ← getLastD_map_filename, hrest, h0]
      simp only [get_total_size, h0, hlast]

/-- C6: the format is selected solely by the first sorted filename - long
format tried first, short format second - and once selected the whole parse
is that format's parse: a failure anywhere in the list surfaces as
`PartitionParseException` naming a file of the list that the selected
format's pattern (for long format, either of its two patterns) rejects;
the parse never falls back to the other format mid-set. -/
theorem c6_format_selection :
    (∀ (f0 : List Char) (rest : List (List Char)),
      (pyMatch long_format f0).isSome = true →
      from_directory (f0 :: rest) = _try_get_partitions_long_format (f0 :: rest)) ∧
    (∀ (f0 : List Char) (rest : List (List Char)),
      pyMatch long_format f0 = none →
      (pyMatch short_format f0).isSome = true →
      from_directory (f0 :: rest) = _try_get_partitions_short_format (f0 :: rest)) ∧
    (∀ (f0 : List Char) (rest : List (List Char)) (e : PyErr),
      (pyMatch long_format f0).isSome = true →
      from_directory (f0 :: rest) = .error e →
      ∃ f, f ∈ f0 :: rest ∧ e = .partitionParse f ∧
        (pyMatch long_format f = none ∨
          ∃ m, pyMatch long_format f = some m ∧
            pyMatch long_format_fstype ((m.lookup 2).getD []) = none)) ∧
    (∀ (f0 : List Char) (rest : List (List Char)) (e : PyErr),
      pyMatch long_format f0 = none →
      (pyMatch short_format f0).isSome = true →
      from_directory (f0 :: rest) = .error e →
      ∃ f, f ∈ f0 :: rest ∧ e = .partitionParse f ∧ pyMatch short_format f = none) := by
  refine ⟨from_directory_long, from_directory_short, ?_, ?_⟩
  · intro f0 rest e hl herr
    rw [from_directory_long f0 rest hl] at herr
    rw [show _try_get_partitions_long_format (f0 :: rest)
        = _try_get_partitions_long_format_loop (f0 :: rest) from by
      simp only [_try_get_partitions_long_format, hl, if_true]] at herr
    exact long_loop_error (f0 :: rest) e herr
  · intro f0 rest e hl hs herr
    rw [from_directory_short f0 rest hl hs] at herr
    rw [show _try_get_partitions_short_format (f0 :: rest)
        = _try_get_partitions_short_format_loop ((f0 :: rest).length - 1) 0 oneMiB
            (f0 :: rest) from by
      simp only [_try_get_partitions_short_format, hs, if_true]] at herr
    exact short_loop_error (f0 :: rest) ((f0 :: rest).length - 1) 0 oneMiB e herr

/-- Witness for C6: a long-format first file selects long format for the
whole set, so a later short-format-looking file is rejected with
`PartitionParseException` naming it - no mid-set fallback. -/
theorem c6_format_selection_witness :
    from_directory
        ["partition01 -- dd 256MiB -- parted mklabel msdos mkpart primary fat32 1 8MiB".data,
         "partition02_16GiB_ext4".data]
      = .error (.partitionParse ("partition02_16GiB_ext4".data)) := by
  rw [c6_format_selection.1
    ("partition01 -- dd 256MiB -- parted mklabel msdos mkpart primary fat32 1 8MiB".data)
    ["partition02_16GiB_ext4".data] (by decide)]
  decide

/-- C9: the parse is a pure function of the filename list - two runs on the
same input yield structurally identical descriptor sequences (same
filenames, script fragments and filesystem types in the same order); the
source loops use only local state. -/
theorem c9_parse_deterministic (files : List (List Char)) (ps1 ps2 : List Partition)
    (h1 : from_directory files = .ok ps1) (h2 : from_directory files = .ok ps2) :
    ps1 = ps2 ∧
    ps1.map Partition.filename = ps2.map Partition.filename ∧
    ps1.map Partition.parted = ps2.map Partition.parted ∧
    ps1.map Partition.fstype = ps2.map Partition.fstype := by
  obtain rfl := (Except.ok.inj (h1.symm.trans h2)).symm
  exact ⟨rfl, rfl, rfl, rfl⟩

/-- Witness for C9: two runs on the single example file give the same
descriptor list. -/
theorem c9_parse_deterministic_witness :
    ([⟨"partition01_8MiB_fat32".data,
       "unit s mklabel gpt mkpart primary fat32 1MiB 100% set 1 boot on".data,
       "fat32".data⟩] : List Partition)
      = [⟨"partition01_8MiB_fat32".data,
          "unit s mklabel gpt mkpart primary fat32 1MiB 100% set 1 boot on".data,
          "fat32".data⟩] := by
  have h : from_directory ["partition01_8MiB_fat32".data]
      = .ok [⟨"partition01_8MiB_fat32".data,
             "unit s mklabel gpt mkpart primary fat32 1MiB 100% set 1 boot on".data,
             "fat32".data⟩] := by decide
  exact (c9_parse_deterministic ["partition01_8MiB_fat32".data] _ _ h h).1

/-- C3 (amended): for a short-format collection (first filename without the
` -- dd ` pattern), `get_total_size` parses the token that the loose
pattern `.*partition(\d\d?)[_ ]([^_ ]+)` captures from the last partition's
filename - the token immediately after the partition index, which is the
declared end-offset for ordinary names but `msdos` when the last filename
carries the marker - and it never consults the synthesized fragments
(where the last end shows as the forced `100%`). -/
theorem c3_total_size_short_rule :
    (∀ (p0 : Partition) (rest : List Partition) (m : Caps),
      pyMatch total_size_long p0.filename = none →
      pyMatch total_size_short (rest.getLastD p0).filename = some m →
      get_total_size (p0 :: rest) = _parse_size ((m.lookup 2).getD [])) ∧
    (∀ (ps1 ps2 : List Partition),
      ps1.map Partition.filename = ps2.map Partition.filename →
      get_total_size ps1 = get_total_size ps2) :=
  ⟨get_total_size_cons_short, get_total_size_filenames_only⟩

/-- Counterexample for C3 as stated: on the short-format set
`partition01_8MiB_fat32`, `partition02_msdos_16GiB_ext4` the builder
succeeds and the last file's declared end-offset is `16GiB`
(byte value 17179869184), yet `get_total_size` raises
`PartitionSizeParseException`: its loose pattern captures the token
`msdos`, not the declared end. -/
theorem c3_counterexample :
    from_directory ["partition01_8MiB_fat32".data, "partition02_msdos_16GiB_ext4".data]
      = .ok [⟨"partition01_8MiB_fat32".data,
              "unit s mklabel gpt mkpart primary fat32 1MiB 8MiB set 1 boot on".data,
              "fat32".data⟩,
             ⟨"partition02_msdos_16GiB_ext4".data,
              "mkpart primary ext4 8MiB 100%".data,
              "ext4".data⟩] ∧
    get_total_size [⟨"partition01_8MiB_fat32".data,
        "unit s mklabel gpt mkpart primary fat32 1MiB 8MiB set 1 boot on".data,
        "fat32".data⟩,
      ⟨"partition02_msdos_16GiB_ext4".data,
        "mkpart primary ext4 8MiB 100%".data,
        "ext4".data⟩] = .error .sizeParse ∧
    shortEndTok ("partition02_msdos_16GiB_ext4".data) = "16GiB".data ∧
    _parse_size ("16GiB".data) = .ok 17179869184 := by
  refine ⟨by decide, by decide, by decide, ?_⟩
  exact parse_size_eval_int "16GiB".data "16".data "GiB".data 16 4 1073741824
    17179869184 34
    (by decide) (by decide) (by decide) (by decide) (by decide)
    (by norm_num [(by decide : natDigits ("16".data) = 16)]) (by decide)
    (by norm_num) (by norm_num) (by norm_num) (by norm_num) (by norm_num)
    (by norm_num) (by norm_num) (by norm_num) (by norm_num)

/-- Witness for C3 (amended): on the ordinary two-file example the captured
token is the declared end `16GiB` and the size resolves to 16 GiB. -/
theorem c3_total_size_short_rule_witness :
    get_total_size [⟨"partition01_8MiB_fat32".data,
        "unit s mklabel gpt mkpart primary fat32 1MiB 8MiB set 1 boot on".data,
        "fat32".data⟩,
      ⟨"partition02_16GiB_ext4".data,
        "mkpart primary ext4 8MiB 100%".data,
        "ext4".data⟩] = .ok 17179869184 := by
  have h := c3_total_size_short_rule.1
    ⟨"partition01_8MiB_fat32".data,
     "unit s mklabel gpt mkpart primary fat32 1MiB 8MiB set 1 boot on".data,
     "fat32".data⟩
    [⟨"partition02_16GiB_ext4".data,
      "mkpart primary ext4 8MiB 100%".data,
      "ext4".data⟩]
    [(2, "16GiB".data), (1, "02".data)] (by decide) (by decide)
  rw [h, show (List.lookup 2 ([(2, "16GiB".data), (1, "02".data)] : Caps)).getD []
      = "16GiB".data from by decide]
  exact parse_size_eval_int "16GiB".data "16".data "GiB".data 16 4 1073741824
    17179869184 34
    (by decide) (by decide) (by decide) (by decide) (by decide)
    (by norm_num [(by decide : natDigits ("16".data) = 16)]) (by decide)
    (by norm_num) (by norm_num) (by norm_num) (by norm_num) (by norm_num)
    (by norm_num) (by norm_num) (by norm_num) (by norm_num)

/-- C4 (amended): when the first partition's raw filename contains the
literal pattern ` -- dd <size>`, `get_total_size` parses that captured size
token regardless of every subsequent partition's filename; when the first
filename lacks the pattern, resolution is not necessarily an error - it
falls back to the short-format rule on the last partition's filename, and
only fails when that also fails. -/
theorem c4_total_size_long_rule :
    (∀ (p0 : Partition) (rest : List Partition) (m : Caps),
      pyMatch total_size_long p0.filename = some m →
      get_total_size (p0 :: rest) = _parse_size ((m.lookup 1).getD [])) ∧
    (∀ (p0 : Partition) (rest : List Partition),
      pyMatch total_size_long p0.filename = none →
      get_total_size (p0 :: rest) =
        (match pyMatch total_size_short (rest.getLastD p0).filename with
         | some m => _parse_size ((m.lookup 2).getD [])
         | none => Except.error .sizeParse)) := by
  constructor
  · exact get_total_size_cons_long
  · intro p0 rest h
    simp only [get_total_size, h]

/-- Counterexample for C4 as stated: a long-format collection whose first
filename contains no ` -- dd <size>` pattern, where total-size resolution
nonetheless succeeds (with 5000000 bytes, from the stray token `5MB` in the
last filename via the short-format fallback) instead of being an error. -/
theorem c4_counterexample :
    from_directory
        ["partition01 -- parted mklabel gpt mkpart primary fat32 1MiB 8MiB".data,
         "partition02 5MB -- parted mkpart primary ext4 8MiB 100%".data]
      = .ok [⟨"partition01 -- parted mklabel gpt mkpart primary fat32 1MiB 8MiB".data,
              "mklabel gpt mkpart primary fat32 1MiB 8MiB".data, "fat32".data⟩,
             ⟨"partition02 5MB -- parted mkpart primary ext4 8MiB 100%".data,
              "mkpart primary ext4 8MiB 100%".data, "ext4".data⟩] ∧
    pyMatch total_size_long
        ("partition01 -- parted mklabel gpt mkpart primary fat32 1MiB 8MiB".data) = none ∧
    get_total_size
        [⟨"partition01 -- parted mklabel gpt mkpart primary fat32 1MiB 8MiB".data,
          "mklabel gpt mkpart primary fat32 1MiB 8MiB".data, "fat32".data⟩,
         ⟨"partition02 5MB -- parted mkpart primary ext4 8MiB 100%".data,
          "mkpart primary ext4 8MiB 100%".data, "ext4".data⟩] = .ok 5000000 := by
  refine ⟨by decide, by decide, ?_⟩
  have h := get_total_size_cons_short
    ⟨"partition01 -- parted mklabel gpt mkpart primary fat32 1MiB 8MiB".data,
     "mklabel gpt mkpart primary fat32 1MiB 8MiB".data, "fat32".data⟩
    [⟨"partition02 5MB -- parted mkpart primary ext4 8MiB 100%".data,
      "mkpart primary ext4 8MiB 100%".data, "ext4".data⟩]
    [(2, "5MB".data), (1, "02".data)] (by decide) (by decide)
  rw [h, show (List.lookup 2 ([(2, "5MB".data), (1, "02".data)] : Caps)).getD []
      = "5MB".data from by decide]
  exact parse_size_eval_int "5MB".data "5".data "MB".data 5 2 1000000
    5000000 22
    (by decide) (by decide) (by decide) (by decide) (by decide)
    (by norm_num [(by decide : natDigits ("5".data) = 5)]) (by decide)
    (by norm_num) (by norm_num) (by norm_num) (by norm_num) (by norm_num)
    (by norm_num) (by norm_num) (by norm_num) (by norm_num)

/-- Witness for C4 (amended): the spec's long-format example file with
` -- dd 256MiB` resolves to 268435456 bytes whatever the rest holds. -/
theorem c4_total_size_long_rule_witness :
    get_total_size
        [⟨"partition01 -- dd 256MiB -- parted mklabel msdos mkpart primary fat32 1 8MiB".data,
          "mklabel msdos mkpart primary fat32 1 8MiB".data, "fat32".data⟩]
      = .ok 268435456 := by
  have h := c4_total_size_long_rule.1
    ⟨"partition01 -- dd 256MiB -- parted mklabel msdos mkpart primary fat32 1 8MiB".data,
     "mklabel msdos mkpart primary fat32 1 8MiB".data, "fat32".data⟩
    [] [(1, "256MiB".data)] (by decide)
  rw [h, show (List.lookup 1 ([(1, "256MiB".data)] : Caps)).getD []
      = "256MiB".data from by decide]
  exact parse_size_eval_int "256MiB".data "256".data "MiB".data 256 8 1048576
    268435456 28
    (by decide) (by decide) (by decide) (by decide) (by decide)
    (by norm_num [(by decide : natDigits ("256".data) = 256)]) (by decide)
    (by norm_num) (by norm_num) (by norm_num) (by norm_num) (by norm_num)
    (by norm_num) (by norm_num) (by norm_num) (by norm_num)

/-- C10 (amended): a single short-format file is both first and last: its
fragment carries the table-type declaration, the boot flag and the `100%`
end-override together (`unit s mklabel <gpt|msdos> mkpart primary <fstype>
1MiB 100% set 1 boot on`); `get_total_size`, however, resolves the image
size from the token that the loose pattern captures from the filename -
the declared end-offset for ordinary names, but `msdos` (failing) when the
marker is present. -/
theorem c10_singleton_set :
    (∀ (f : List Char) (m : Caps),
      pyMatch long_format f = none →
      pyMatch short_format f = some m →
      from_directory [f] = .ok [Partition.mk f
        (firstFrag (if (m.lookup 2).isSome then "msdos".data else "gpt".data)
          ((m.lookup 4).getD []) oneMiB pct100)
        ((m.lookup 4).getD [])]) ∧
    (∀ (p : Partition) (m2 : Caps),
      pyMatch total_size_long p.filename = none →
      pyMatch total_size_short p.filename = some m2 →
      get_total_size [p] = _parse_size ((m2.lookup 2).getD [])) := by
  constructor
  · intro f m hlong hshort
    have hl : _try_get_partitions_long_format [f] = .ok [] := by
      simp [_try_get_partitions_long_format, hlong]
    have hs0 : (pyMatch short_format f).isSome = true := by rw [hshort]; rfl
    have hs : _try_get_partitions_short_format [f]
        = .ok [Partition.mk f
            (firstFrag (if (m.lookup 2).isSome then "msdos".data else "gpt".data)
              ((m.lookup 4).getD []) oneMiB pct100)
            ((m.lookup 4).getD [])] := by
      simp only [_try_get_partitions_short_format, hs0, if_true,
        _try_get_partitions_short_format_loop, hshort, List.length_cons, List.length_nil,
        Except.map]
      norm_num
    unfold from_directory
    rw [hl]
    simp [hs, Bind.bind, Except.bind, Pure.pure, Except.pure]
  · intro p m2 h1 h2
    exact get_total_size_cons_short p [] m2 h1 h2

/-- Counterexample for C10 as stated: on the msdos-marked singleton
`partition01_msdos_8MiB_fat32` the fragment is as claimed, and the declared
end-offset `8MiB` resolves to 8388608 bytes, but `get_total_size` raises
`PartitionSizeParseException` (its loose pattern captures `msdos`). -/
theorem c10_counterexample :
    from_directory ["partition01_msdos_8MiB_fat32".data]
      = .ok [⟨"partition01_msdos_8MiB_fat32".data,
              "unit s mklabel msdos mkpart primary fat32 1MiB 100% set 1 boot on".data,
              "fat32".data⟩] ∧
    get_total_size [⟨"partition01_msdos_8MiB_fat32".data,
        "unit s mklabel msdos mkpart primary fat32 1MiB 100% set 1 boot on".data,
        "fat32".data⟩] = .error .sizeParse ∧
    shortEndTok ("partition01_msdos_8MiB_fat32".data) = "8MiB".data ∧
    _parse_size ("8MiB".data) = .ok 8388608 := by
  refine ⟨by decide, by decide, by decide, ?_⟩
  exact parse_size_eval_int "8MiB".data "8".data "MiB".data 8 3 1048576
    8388608 23
    (by decide) (by decide) (by decide) (by decide) (by decide)
    (by norm_num [(by decide : natDigits ("8".data) = 8)]) (by decide)
    (by norm_num) (by norm_num) (by norm_num) (by norm_num) (by norm_num)
    (by norm_num) (by norm_num) (by norm_num) (by norm_num)

/-- Witness for C10 (amended): the unmarked singleton gets the gpt table
declaration, boot flag and `100%` end in one fragment. -/
theorem c10_singleton_set_witness :
    from_directory ["partition01_8MiB_fat32".data]
      = .ok [⟨"partition01_8MiB_fat32".data,
              "unit s mklabel gpt mkpart primary fat32 1MiB 100% set 1 boot on".data,
              "fat32".data⟩] := by
  have h := c10_singleton_set.1 ("partition01_8MiB_fat32".data)
    [(4, "fat32".data), (3, "8MiB".data), (1, "01".data)] (by decide) (by decide)
  exact h.trans (by decide)
